import Mathlib

/-!
Verification of the CLI streaming-pipeline engine of cloudkeeper
(src/keepercore/core/cli/command.py) against its natural-language
specification.

The JSON-like runtime values flowing between stages are embedded as the
inductive type `Value`.  JSON numbers are modelled as integers: the claims
under study are about dispatch on the shape of values, and none of them
hinges on float arithmetic.  Python exceptions are embedded as the
inductive `PyError`; the message strings carried by the constructors are
abbreviations of the runtime f-strings (which interpolate reprs of the
offending values), the constructor itself models the exception class.
-/

/-- The JSON value model: the sole element type flowing through stages.
Mappings are association lists of string keys (insertion ordered, keys
unique for every value produced by the JSON parser, as in a Python dict). -/
inductive Value where
  | null : Value
  | bool (b : Bool) : Value
  | num (n : Int) : Value
  | str (s : String) : Value
  | arr (xs : List Value) : Value
  | obj (ps : List (String × Value)) : Value

/-- Python exception classes raised by the embedded code paths. -/
inductive PyError where
  | keyError (k : String) : PyError
  | typeError (m : String) : PyError
  | valueError (m : String) : PyError
  | jsonDecodeError (m : String) : PyError
  | attributeError (m : String) : PyError
  | cliParseError (m : String) : PyError
deriving DecidableEq

/-- Does the character list start with the given pattern. -/
def listStartsWith : List Char → List Char → Bool
  | [], _ => true
  | _ :: _, [] => false
  | p :: ps, c :: cs => p == c && listStartsWith ps cs

/-- Substring search on character lists. -/
def subSearch (pat : List Char) : List Char → Bool
  | [] => listStartsWith pat []
  | c :: cs => listStartsWith pat (c :: cs) || subSearch pat cs

/-- Python substring containment: `pat in s` for strings. -/
def strContainsSub (s pat : String) : Bool :=
  subSearch pat.toList s.toList

/-- ASCII whitespace, as stripped by the Python int constructor. -/
def isSpaceChar (c : Char) : Bool :=
  c == ' ' || c == '\t' || c == '\n' || c == '\r'

/-- Value of a nonempty all-digit character list, else none. -/
def digitsVal (ds : List Char) : Option Nat :=
  match ds with
  | [] => none
  | _ =>
    if ds.all (fun c => c.isDigit)
    then some (ds.foldl (fun a c => a * 10 + (c.toNat - 48)) 0)
    else none

/-- Python `int(s)` on a string: strip whitespace, optional sign, decimal
digits.  (Digit-group underscores, accepted by Python 3.6+, are outside
this model; no claim exercises them.) -/
def pyStrToInt (s : String) : Option Int :=
  let core := ((s.toList.dropWhile isSpaceChar).reverse.dropWhile isSpaceChar).reverse
  match core with
  | '-' :: ds => (digitsVal ds).map (fun n => -(n : Int))
  | '+' :: ds => (digitsVal ds).map (fun n => (n : Int))
  | ds => (digitsVal ds).map (fun n => (n : Int))

/-- Python membership test `needle in v` for a string needle against a
runtime value: key containment for a dict, substring containment for a
string, element membership for a list (a string needle equals only an
equal string element), and a TypeError for every non-iterable value. -/
def pyIn (needle : String) : Value → Except PyError Bool
  | Value.obj ps => Except.ok (ps.any (fun p => p.1 == needle))
  | Value.str s => Except.ok (strContainsSub s needle)
  | Value.arr xs =>
    Except.ok (xs.any (fun v => match v with
      | Value.str t => t == needle
      | _ => false))
  | _ => Except.error (PyError.typeError "argument of type is not iterable")

/-- Python subscript `v[needle]` with a string subscript: dict lookup
(first binding of the key), TypeError for strings and lists (string and
list indices must be integers), TypeError for the rest. -/
def pyGet (needle : String) : Value → Except PyError Value
  | Value.obj ps =>
    match ps.find? (fun p => p.1 == needle) with
    | some p => Except.ok p.2
    | none => Except.error (PyError.keyError needle)
  | Value.str _ => Except.error (PyError.typeError "string indices must be integers")
  | Value.arr _ => Except.error (PyError.typeError "list indices must be integers")
  | _ => Except.error (PyError.typeError "object is not subscriptable")

/-- Python `int(v)` coercion: ints unchanged, bools to 0 or 1, strings by
decimal parse, everything else raises (TypeError or ValueError, both
caught by the callers below). -/
def coerceInt : Value → Option Int
  | Value.num n => some n
  | Value.bool b => some (if b then 1 else 0)
  | Value.str s => pyStrToInt s
  | _ => none

/-- Environment lookup: first binding of the key, as in a Python dict. -/
def envGet (env : List (String × String)) (k : String) : Option String :=
  (env.find? (fun p => p.1 == k)).map (fun p => p.2)

/-- Python falsiness of the optional CLI argument: None or the empty
string (`if not arg`). -/
def argFalsy : Option String → Bool
  | none => true
  | some s => s == ""

/-- FlattenCommand.parse, per-element emission: the code wraps each
element with `stream.iterate` when it is a Python iterable and
`stream.just` otherwise.  Lists iterate over their members, strings over
their characters (one-character strings), dicts over their keys; null,
bools and numbers are not iterable and pass through unchanged. -/
def flattenIterate : Value → List Value
  | Value.arr xs => xs
  | Value.str s => s.toList.map (fun c => Value.str (String.singleton c))
  | Value.obj ps => ps.map (fun p => Value.str p.1)
  | v => [v]

/-- FlattenCommand.parse: `stream.flatmap(in_stream, iterate)`. -/
def flattenRun (vs : List Value) : List Value :=
  vs.flatMap flattenIterate

/-- ChunkCommand.parse, argument handling: `int(arg) if arg else 100`.
A missing or empty argument defaults to 100; otherwise the Python int
constructor parses the string and raises ValueError on failure.  There is
no positivity check. -/
def chunkParseSize (arg : Option String) : Except PyError Int :=
  match arg with
  | none => Except.ok 100
  | some s =>
    if s == "" then Except.ok 100
    else
      match pyStrToInt s with
      | some n => Except.ok n
      | none => Except.error (PyError.valueError "invalid literal for int with base 10")

/-- The chunking combinator applied by ChunkCommand.parse
(`stream.chunks(in_stream, size)`, aiostream): repeatedly take one
element plus up to `n - 1` more to form each emitted list; the final list
may be shorter; an exhausted input emits nothing. -/
def chunksList (n : Nat) : List Value → List (List Value)
  | [] => []
  | x :: xs => (x :: xs.take (n - 1)) :: chunksList n (xs.drop (n - 1))
termination_by l => l.length
decreasing_by
  simp only [List.length_drop, List.length_cons]
  omega

/-- MatchSource.parse: reads `graph` from the environment (KeyError when
absent — the specification names this failure MissingEnvironmentError),
defaults `section` to "reported", rejects a missing or empty query with
CLIParseError, and only then invokes the query parser and the graph
store.  The parser and the store are passed as explicit functions so the
theorems can quantify over them: a result independent of both witnesses
that neither was invoked. -/
def matchParse {Q : Type} (env : List (String × String)) (arg : Option String)
    (parseQuery : String → Except PyError Q)
    (queryList : String → String → Q → List Value) : Except PyError (List Value) :=
  match envGet env "graph" with
  | none => Except.error (PyError.keyError "graph")
  | some graphName =>
    let sec := (envGet env "section").getD "reported"
    if argFalsy arg then
      Except.error (PyError.cliParseError
        "match command needs a query to execute, but nothing was given!")
    else
      match parseQuery (arg.getD "") with
      | Except.error e => Except.error e
      | Except.ok q => Except.ok (queryList graphName sec q)

/-- CountCommand.parse with a property argument, per-element step
(`inc_prop`): the membership test `arg in o` runs outside the try block
and propagates its TypeError; inside the branch, `int(o[arg])` has every
exception caught and counted as not matched. -/
def countStep (arg : String) (o : Value) : Except PyError (Int × Int) :=
  match pyIn arg o with
  | Except.error e => Except.error e
  | Except.ok c =>
    if c then
      match pyGet arg o with
      | Except.error _ => Except.ok (0, 1)
      | Except.ok v =>
        match coerceInt v with
        | some n => Except.ok (n, 0)
        | none => Except.ok (0, 1)
    else Except.ok (0, 1)

/-- CountCommand.parse, stream body (`count_in_stream`) with a property
argument: fold the per-element step over the input, then emit exactly one
mapping with the two counters. -/
def countGo (arg : String) (acc : Int × Int) : List Value → Except PyError (Int × Int)
  | [] => Except.ok acc
  | o :: os =>
    match countStep arg o with
    | Except.error e => Except.error e
    | Except.ok (c, nm) => countGo arg (acc.1 + c, acc.2 + nm) os

/-- CountCommand with a property argument: the whole flow, emitting the
single result mapping downstream. -/
def countRun (arg : String) (items : List Value) : Except PyError (List Value) :=
  match countGo arg (0, 0) items with
  | Except.error e => Except.error e
  | Except.ok (c, nm) =>
    Except.ok [Value.obj [("matched", Value.num c), ("not_matched", Value.num nm)]]

/-- SetDesiredState.set_desired, node-id derivation loop: for each item,
`"_id" in item` (Python membership, may raise TypeError), then
`item["_id"]` when contained (raises TypeError for strings and lists),
`elif isinstance(item, str)` appends the string itself, and every other
item falls through silently. -/
def deriveNodeIds : List Value → Except PyError (List Value)
  | [] => Except.ok []
  | item :: rest =>
    match pyIn "_id" item with
    | Except.error e => Except.error e
    | Except.ok true =>
      match pyGet "_id" item with
      | Except.error e => Except.error e
      | Except.ok idv =>
        match deriveNodeIds rest with
        | Except.error e => Except.error e
        | Except.ok ids => Except.ok (idv :: ids)
    | Except.ok false =>
      match item with
      | Value.str s =>
        match deriveNodeIds rest with
        | Except.error e => Except.error e
        | Except.ok ids => Except.ok (Value.str s :: ids)
      | _ => deriveNodeIds rest

/-- Ordered insertion into a key-sorted association list, comparing keys
by code point as the Python sort on dict items does. -/
def insertPair (p : String × Value) : List (String × Value) → List (String × Value)
  | [] => [p]
  | q :: qs => if p.1 ≤ q.1 then p :: q :: qs else q :: insertPair p qs

/-- Insertion sort of association-list pairs by key. -/
def sortPairs : List (String × Value) → List (String × Value)
  | [] => []
  | p :: ps => insertPair p (sortPairs ps)

mutual
/-- Recursive key-normalisation performed by `json.dumps(item,
sort_keys=True)`: every mapping, at every depth, has its pairs sorted by
key before serialization. -/
def sortValue : Value → Value
  | Value.arr xs => Value.arr (sortList xs)
  | Value.obj ps => Value.obj (sortPairs (sortInner ps))
  | v => v

def sortList : List Value → List Value
  | [] => []
  | x :: xs => sortValue x :: sortList xs

def sortInner : List (String × Value) → List (String × Value)
  | [] => []
  | p :: ps => (p.1, sortValue p.2) :: sortInner ps
end

/-- Four lowercase hex digits. -/
def hex4 (n : Nat) : String :=
  let d := fun k => String.singleton (Nat.digitChar (n / k % 16))
  d 4096 ++ d 256 ++ d 16 ++ d 1

/-- JSON escaping of one character as performed by the Python json
serializer with its default ensure_ascii=True: the two-character escapes
for quote, backslash and common control characters, \uXXXX for the other
control characters and for all non-ASCII characters (surrogate pairs
beyond the basic plane). -/
def escapeChar (c : Char) : String :=
  if c == '"' then "\\\""
  else if c == '\\' then "\\\\"
  else if c == '\n' then "\\n"
  else if c == '\t' then "\\t"
  else if c == '\r' then "\\r"
  else if c.toNat == 8 then "\\b"
  else if c.toNat == 12 then "\\f"
  else if c.toNat < 32 || c.toNat > 126 then
    if c.toNat < 65536 then "\\u" ++ hex4 c.toNat
    else
      "\\u" ++ hex4 (55296 + (c.toNat - 65536) / 1024) ++
      "\\u" ++ hex4 (56320 + (c.toNat - 65536) % 1024)
  else String.singleton c

/-- JSON string literal serialization. -/
def jsonQuote (s : String) : String :=
  "\"" ++ String.join (s.toList.map escapeChar) ++ "\""

mutual
/-- The Python json serializer with default separators (", " and ": ")
applied to an already key-normalised value; composed with `sortValue`
below it models `json.dumps(item, sort_keys=True)`. -/
def dumpsV : Value → String
  | Value.null => "null"
  | Value.bool b => cond b "true" "false"
  | Value.num n => toString n
  | Value.str s => jsonQuote s
  | Value.arr xs => "[" ++ dumpsArr xs ++ "]"
  | Value.obj ps => "\x7b" ++ dumpsObj ps ++ "\x7d"

def dumpsArr : List Value → String
  | [] => ""
  | [x] => dumpsV x
  | x :: y :: xs => dumpsV x ++ ", " ++ dumpsArr (y :: xs)

def dumpsObj : List (String × Value) → String
  | [] => ""
  | [p] => jsonQuote p.1 ++ ": " ++ dumpsV p.2
  | p :: q :: ps => jsonQuote p.1 ++ ": " ++ dumpsV p.2 ++ ", " ++ dumpsObj (q :: ps)
end

/-- The canonical serialization used by UniqCommand for dicts:
`json.dumps(item, sort_keys=True)`. -/
def dumps (v : Value) : String :=
  dumpsV (sortValue v)

/-- Fingerprints held in the visited set of UniqCommand.  The set lives in
the Python value world, so its equality is Python equality: booleans are
numerically equal to 0 and 1, and the serialization string of a dict can
collide with an equal plain string element.  Sequences have no
fingerprint: they are unhashable and the fallback raises CLIParseError. -/
inductive Fp where
  | fpNull : Fp
  | fpNum (n : Int) : Fp
  | fpStr (s : String) : Fp
deriving DecidableEq

/-- UniqCommand.parse, per-element fingerprint: hashable scalars are used
directly (with Python equality), dicts are canonically serialized, and a
list raises CLIParseError. -/
def fingerprint : Value → Except PyError Fp
  | Value.null => Except.ok Fp.fpNull
  | Value.bool b => Except.ok (Fp.fpNum (if b then 1 else 0))
  | Value.num n => Except.ok (Fp.fpNum n)
  | Value.str s => Except.ok (Fp.fpStr s)
  | Value.obj ps => Except.ok (Fp.fpStr (dumps (Value.obj ps)))
  | Value.arr _ => Except.error (PyError.cliParseError "uniq can not make item uniq")

/-- UniqCommand.parse: `stream.filter(in_stream, has_not_seen)` with the
mutable visited set threaded through the traversal. -/
def uniqGo (visited : List Fp) : List Value → Except PyError (List Value)
  | [] => Except.ok []
  | x :: xs =>
    match fingerprint x with
    | Except.error e => Except.error e
    | Except.ok fp =>
      if fp ∈ visited then uniqGo visited xs
      else
        match uniqGo (fp :: visited) xs with
        | Except.error e => Except.error e
        | Except.ok ys => Except.ok (x :: ys)

/-- One full run of the uniq stage, starting from the empty visited set
created at parse time. -/
def uniqRun (xs : List Value) : Except PyError (List Value) :=
  uniqGo [] xs

/-- JSON whitespace. -/
def isJsonWs (c : Char) : Bool :=
  c == ' ' || c == '\t' || c == '\n' || c == '\r'

/-- Skip JSON whitespace. -/
def skipWs (cs : List Char) : List Char :=
  cs.dropWhile isJsonWs

/-- Python dict construction from parsed object members: a repeated key
keeps its original position and takes the later value. -/
def dictInsert : List (String × Value) → String → Value → List (String × Value)
  | [], k, v => [(k, v)]
  | (k0, v0) :: ps, k, v =>
    if k0 == k then (k0, v) :: ps else (k0, v0) :: dictInsert ps k v

/-- Decoding of the short backslash escapes of JSON strings. -/
def escMap (e : Char) : Option String :=
  if e == '"' then some "\""
  else if e == '\\' then some "\\"
  else if e == '/' then some "/"
  else if e == 'n' then some "\n"
  else if e == 't' then some "\t"
  else if e == 'r' then some "\r"
  else none

/-- JSON string body after the opening quote: plain characters and the
short backslash escapes.  (The \uXXXX escape form and float literals are
outside this model of the stdlib parser; no claim exercises them.) -/
def parseStrBody : List Char → Option (String × List Char)
  | [] => none
  | '"' :: rest => some ("", rest)
  | '\\' :: e :: rest =>
    match escMap e with
    | none => none
    | some c => (parseStrBody rest).map (fun p => (c ++ p.1, p.2))
  | '\\' :: [] => none
  | c :: rest =>
    if c.toNat < 32 then none
    else (parseStrBody rest).map (fun p => (String.singleton c ++ p.1, p.2))

/-- JSON integer literal (optional minus, digits). -/
def parseNum (cs : List Char) : Option (Int × List Char) :=
  match cs with
  | '-' :: rest =>
    let ds := rest.takeWhile (fun c => c.isDigit)
    (digitsVal ds).map (fun n => (-(n : Int), rest.drop ds.length))
  | _ =>
    let ds := cs.takeWhile (fun c => c.isDigit)
    (digitsVal ds).map (fun n => ((n : Int), cs.drop ds.length))

mutual
/-- Recursive-descent JSON value parser (the integer fragment of the
stdlib json.loads used by EchoSource); fuel is structural and any fuel
of at least the input length succeeds on valid input. -/
def parseV : Nat → List Char → Option (Value × List Char)
  | 0, _ => none
  | fuel + 1, cs =>
    match skipWs cs with
    | 'n' :: 'u' :: 'l' :: 'l' :: rest => some (Value.null, rest)
    | 't' :: 'r' :: 'u' :: 'e' :: rest => some (Value.bool true, rest)
    | 'f' :: 'a' :: 'l' :: 's' :: 'e' :: rest => some (Value.bool false, rest)
    | '"' :: rest => (parseStrBody rest).map (fun p => (Value.str p.1, p.2))
    | '[' :: rest =>
      (match skipWs rest with
       | ']' :: r2 => some (Value.arr [], r2)
       | other => (parseElems fuel other).map (fun p => (Value.arr p.1, p.2)))
    | c :: rest =>
      if c == Char.ofNat 123 then
        match skipWs rest with
        | r2 =>
          if r2.head? == some (Char.ofNat 125) then some (Value.obj [], r2.tail)
          else (parseMembers fuel [] r2).map (fun p => (Value.obj p.1, p.2))
      else if c.isDigit || c == '-' then
        (parseNum (c :: rest)).map (fun p => (Value.num p.1, p.2))
      else none
    | [] => none

def parseElems : Nat → List Char → Option (List Value × List Char)
  | 0, _ => none
  | fuel + 1, cs =>
    match parseV fuel cs with
    | none => none
    | some (v, r) =>
      match skipWs r with
      | ',' :: r2 => (parseElems fuel r2).map (fun p => (v :: p.1, p.2))
      | ']' :: r2 => some ([v], r2)
      | _ => none

def parseMembers : Nat → List (String × Value) → List Char →
    Option (List (String × Value) × List Char)
  | 0, _, _ => none
  | fuel + 1, acc, cs =>
    match skipWs cs with
    | '"' :: rest =>
      match parseStrBody rest with
      | none => none
      | some (k, r) =>
        match skipWs r with
        | ':' :: r2 =>
          match parseV fuel r2 with
          | none => none
          | some (v, r3) =>
            match skipWs r3 with
            | ',' :: r4 => parseMembers fuel (dictInsert acc k v) r4
            | r4 =>
              if r4.head? == some (Char.ofNat 125)
              then some (dictInsert acc k v, r4.tail)
              else none
        | _ => none
    | _ => none
end

/-- The stdlib `json.loads` (integer fragment): parse one value and
require only whitespace after it. -/
def jsonLoads (s : String) : Except String Value :=
  match parseV (s.length + 1) s.toList with
  | none => Except.error "Expecting value"
  | some (v, rest) =>
    if skipWs rest = [] then Except.ok v else Except.error "Extra data"

/-- The argument actually given to json.loads by EchoSource.parse:
`arg if arg else ""` (None and the empty string both become ""). -/
def argOrEmpty (arg : Option String) : String :=
  arg.getD ""

/-- EchoSource.parse, dispatch on the json.loads outcome: a decode
failure propagates (JSONDecodeError, the ParseError of the spec
taxonomy); a list emits its elements; a str, int, float, bool or dict is
emitted as a singleton; the remaining possibility — Python None, from the
JSON literal null — falls through every isinstance test and raises
AttributeError. -/
def echoEmit (s : String) (r : Except String Value) : Except PyError (List Value) :=
  match r with
  | Except.error m => Except.error (PyError.jsonDecodeError m)
  | Except.ok (Value.arr xs) => Except.ok xs
  | Except.ok Value.null =>
    Except.error (PyError.attributeError ("Echo does not understand " ++ s ++ "."))
  | Except.ok v => Except.ok [v]

/-- EchoSource.parse as a whole. -/
def echoParse (arg : Option String) : Except PyError (List Value) :=
  echoEmit (argOrEmpty arg) (jsonLoads (argOrEmpty arg))

/-- Per-element emission of the flatten stage as the amended claim words
it: a Sequence emits its members in order (one level only), a String
emits its one-character substrings in order, a Mapping emits its keys in
order, and Null, Bool and Number elements are emitted unchanged. -/
def specFlattenElem : Value → List Value
  | Value.null => [Value.null]
  | Value.bool b => [Value.bool b]
  | Value.num n => [Value.num n]
  | Value.str s => s.toList.map (fun c => Value.str (String.singleton c))
  | Value.arr xs => xs
  | Value.obj ps => ps.map (fun p => Value.str p.1)

/-- What the desired-state id-derivation loop does with one element. -/
inductive IdAction where
  | contrib (idv : Value) : IdAction
  | skip : IdAction
  | fail (e : PyError) : IdAction

/-- Per-element behaviour of the id-derivation loop as the amended claim
words it: a Mapping with an `_id` key contributes that value and one
without it is silently skipped; a String containing `_id` as a substring
fails with TypeError and any other String contributes itself; a Sequence
containing the string `_id` fails with TypeError and any other Sequence
is silently skipped; Null, Bool and Number elements fail with
TypeError. -/
def idActionOf : Value → IdAction
  | Value.obj ps =>
    match ps.find? (fun p => p.1 == "_id") with
    | some p => IdAction.contrib p.2
    | none => IdAction.skip
  | Value.str s =>
    if strContainsSub s "_id"
    then IdAction.fail (PyError.typeError "string indices must be integers")
    else IdAction.contrib (Value.str s)
  | Value.arr xs =>
    if xs.any (fun v => match v with | Value.str t => t == "_id" | _ => false)
    then IdAction.fail (PyError.typeError "list indices must be integers")
    else IdAction.skip
  | _ => IdAction.fail (PyError.typeError "argument of type is not iterable")

/-- Is the action a failure. -/
def idActionFails : IdAction → Bool
  | IdAction.fail _ => true
  | _ => false

/-- The contributed id of an action, if any. -/
def idContrib : IdAction → Option Value
  | IdAction.contrib v => some v
  | _ => none

/-- Per-element behaviour of the count stage with property argument `p`
as the amended claim words it: a Mapping with key `p` adds the coerced
integer to the matched sum (or one to not_matched when coercion fails), a
Mapping without `p` and every String and Sequence element add one to
not_matched, and Null, Bool and Number elements have no tally — the run
fails on them. -/
def countActionSpec (p : String) : Value → Option (Int × Int)
  | Value.obj ps =>
    match ps.find? (fun q => q.1 == p) with
    | some q =>
      match coerceInt q.2 with
      | some n => some (n, 0)
      | none => some (0, 1)
    | none => some (0, 1)
  | Value.str _ => some (0, 1)
  | Value.arr _ => some (0, 1)
  | _ => none

/-- The totals the count stage accumulates over an input without failing
elements. -/
def specTally (p : String) (items : List Value) : Int × Int :=
  items.foldl
    (fun acc v =>
      match countActionSpec p v with
      | some c => (acc.1 + c.1, acc.2 + c.2)
      | none => acc) (0, 0)

/-- Is the value a Sequence. -/
def isSeqB : Value → Bool
  | Value.arr _ => true
  | _ => false

/-- No element of the list is a Sequence. -/
def noSeq (xs : List Value) : Bool :=
  xs.all (fun v => !isSeqB v)

/-- Total fingerprint function (junk on Sequences, which have none). -/
def fpOf (v : Value) : Fp :=
  match fingerprint v with
  | Except.ok f => f
  | Except.error _ => Fp.fpNull

/-- First-occurrence deduplication as the claim words it: each element is
kept and every later element with the same fingerprint is dropped,
preserving the original order of the survivors. -/
def dedupSpec : List Value → List Value
  | [] => []
  | x :: xs => x :: (dedupSpec xs).filter (fun y => !(fpOf y == fpOf x))

/-- The per-element emission of the code equals the amended wording. -/
theorem flattenIterate_eq_spec (v : Value) : flattenIterate v = specFlattenElem v := by
  cases v <;> rfl

/-- Claim C1 (corrected), counterexample to the claim as stated: the
claim says every String and every Mapping is emitted itself, unchanged,
but on the input [String "ab", Mapping {k: null}] the flatten stage emits
the two characters of the string and the key of the mapping — three
elements instead of the two claimed ones. -/
theorem c1_flatten_counterexample :
    flattenRun [Value.str "ab", Value.obj [("k", Value.null)]] =
      [Value.str "a", Value.str "b", Value.str "k"] ∧
    flattenRun [Value.str "ab", Value.obj [("k", Value.null)]] ≠
      [Value.str "ab", Value.obj [("k", Value.null)]] := by
  refine ⟨rfl, fun h => ?_⟩
  have hl := congrArg List.length h
  simp [flattenRun, flattenIterate] at hl

/-- Claim C1 (amended): for the flatten stage, each input element is
expanded independently (non-recursive, one level only): a Sequence emits
its members in order, a String emits its characters as one-character
Strings, a Mapping emits its keys as Strings, and Null, Bool and Number
elements are emitted unchanged.  The second conjunct exhibits the
one-level-only behaviour: the members of a Sequence are emitted as they
are, even when they are Sequences themselves. -/
theorem c1_flatten_amended (vs : List Value) (ys : List Value) :
    flattenRun vs = vs.flatMap specFlattenElem ∧
    flattenRun [Value.arr ys] = ys := by
  constructor
  · unfold flattenRun
    congr 1
    funext v
    exact flattenIterate_eq_spec v
  · simp [flattenRun, flattenIterate]

/-- Claim C4 (corrected), counterexample to the claim as stated: the
claim says a JSON null argument emits the single value null, but
`echo null` raises AttributeError (Python None falls through every
isinstance test of EchoSource.parse). -/
theorem c4_echo_counterexample :
    echoParse (some "null") =
      Except.error (PyError.attributeError "Echo does not understand null.") := rfl

/-- Claim C4 (amended): for the echo source, an argument parsing as a
JSON array emits each element in order; an argument parsing as an object
or as a scalar other than null emits that single value; an argument
parsing as JSON null fails with AttributeError; an argument that is not
valid JSON fails with the JSON decode error (the ParseError of the spec
taxonomy). -/
theorem c4_echo_amended (arg : Option String) :
    (∀ xs, jsonLoads (argOrEmpty arg) = Except.ok (Value.arr xs) →
      echoParse arg = Except.ok xs) ∧
    (∀ v, jsonLoads (argOrEmpty arg) = Except.ok v → v ≠ Value.null →
      (∀ xs, v ≠ Value.arr xs) → echoParse arg = Except.ok [v]) ∧
    (jsonLoads (argOrEmpty arg) = Except.ok Value.null →
      echoParse arg =
        Except.error (PyError.attributeError
          ("Echo does not understand " ++ argOrEmpty arg ++ "."))) ∧
    (∀ m, jsonLoads (argOrEmpty arg) = Except.error m →
      echoParse arg = Except.error (PyError.jsonDecodeError m)) := by
  refine ⟨fun xs h => ?_, fun v h hn ha => ?_, fun h => ?_, fun m h => ?_⟩
  · simp [echoParse, echoEmit, h]
  · rw [echoParse, h]
    cases v with
    | null => exact absurd rfl hn
    | arr xs => exact absurd rfl (ha xs)
    | bool b => rfl
    | num n => rfl
    | str s => rfl
    | obj ps => rfl
  · simp [echoParse, echoEmit, h]
  · simp [echoParse, echoEmit, h]

/-- Claim C4 witness: the four cases of the amended claim at concrete
arguments. -/
theorem c4_echo_witness :
    echoParse (some "[1, 2]") = Except.ok [Value.num 1, Value.num 2] ∧
    echoParse (some "7") = Except.ok [Value.num 7] ∧
    echoParse (some "null") =
      Except.error (PyError.attributeError "Echo does not understand null.") ∧
    echoParse (some "nope") = Except.error (PyError.jsonDecodeError "Expecting value") :=
  ⟨(c4_echo_amended (some "[1, 2]")).1 [Value.num 1, Value.num 2] rfl,
   (c4_echo_amended (some "7")).2.1 (Value.num 7) rfl (by intro h; cases h)
     (by intro xs h; cases h),
   (c4_echo_amended (some "null")).2.2.1 rfl,
   (c4_echo_amended (some "nope")).2.2.2 "Expecting value" rfl⟩

/-- Claim C5 (corrected), counterexample to the claim as stated: the
claim says the argument string "0" (and every negative literal) makes
parsing fail with ParseError, but ChunkCommand.parse runs plain
`int(arg)`: "0" is accepted with size 0 and "-3" with size -3, no error
is raised at parse time. -/
theorem c5_chunk_counterexample :
    chunkParseSize (some "0") = Except.ok 0 ∧
    chunkParseSize (some "-3") = Except.ok (-3) := ⟨rfl, rfl⟩

/-- Claim C5 (amended): for the chunk stage, a missing or empty argument
defaults the size to 100; an argument string that the Python int
constructor parses — including "0" and negative literals, there is no
positivity check — is accepted with that value at parse time; an argument
string that does not parse as an integer fails with ValueError before any
data flows. -/
theorem c5_chunk_arg_amended (s : String) (n : Int) :
    chunkParseSize none = Except.ok 100 ∧
    chunkParseSize (some "") = Except.ok 100 ∧
    (pyStrToInt s = some n → chunkParseSize (some s) = Except.ok n) ∧
    (pyStrToInt s = none → s ≠ "" → chunkParseSize (some s) =
      Except.error (PyError.valueError "invalid literal for int with base 10")) := by
  refine ⟨rfl, rfl, fun h => ?_, fun h hs => ?_⟩
  · have hne : s ≠ "" := by
      intro he
      subst he
      simp [pyStrToInt, digitsVal] at h
    simp [chunkParseSize, hne, h]
  · simp [chunkParseSize, hs, h]

/-- Claim C5 witness: the amended behaviour at the concrete argument
strings "0", "-3" and "abc". -/
theorem c5_chunk_witness :
    chunkParseSize (some "0") = Except.ok 0 ∧
    chunkParseSize (some "-3") = Except.ok (-3) ∧
    chunkParseSize (some "abc") =
      Except.error (PyError.valueError "invalid literal for int with base 10") :=
  ⟨(c5_chunk_arg_amended "0" 0).2.2.1 rfl,
   (c5_chunk_arg_amended "-3" (-3)).2.2.1 rfl,
   (c5_chunk_arg_amended "abc" 0).2.2.2 rfl (by decide)⟩

/-- Claim C6 (confirmed): for the match source, an Environment with no
binding for `graph` makes parsing fail — a KeyError on the lookup
`env["graph"]`, the failure the specification taxonomy names
MissingEnvironmentError — whatever the argument, the query parser and
the store are; there is no fallback to a default graph name. -/
theorem c6_match_missing_graph {Q : Type} (env : List (String × String))
    (arg : Option String) (parseQuery : String → Except PyError Q)
    (queryList : String → String → Q → List Value)
    (hg : envGet env "graph" = none) :
    matchParse env arg parseQuery queryList = Except.error (PyError.keyError "graph") := by
  unfold matchParse
  rw [hg]

/-- Claim C6 witness: an environment binding only `section`. -/
theorem c6_match_missing_graph_witness :
    matchParse [("section", "desired")] (some "isinstance(x)")
      (fun s => Except.ok s) (fun _ _ _ => []) =
      Except.error (PyError.keyError "graph") :=
  c6_match_missing_graph [("section", "desired")] (some "isinstance(x)")
    (fun s => Except.ok s) (fun _ _ _ => []) rfl

/-- Claim C10 (confirmed): for the match source with `graph` bound in the
Environment, a missing or empty query argument makes parsing fail with
CLIParseError; the result is the same for every query parser and every
store function, so neither is invoked. -/
theorem c10_match_empty_query {Q : Type} (env : List (String × String)) (g : String)
    (arg : Option String) (parseQuery : String → Except PyError Q)
    (queryList : String → String → Q → List Value)
    (hg : envGet env "graph" = some g) (ha : argFalsy arg = true) :
    matchParse env arg parseQuery queryList =
      Except.error (PyError.cliParseError
        "match command needs a query to execute, but nothing was given!") := by
  unfold matchParse
  rw [hg, ha]
  rfl

/-- Claim C10 witness: both falsy argument shapes (absent and empty), at
a concrete environment, parser and store. -/
theorem c10_match_empty_query_witness :
    matchParse [("graph", "ns")] none (fun s => Except.ok s) (fun _ _ _ => []) =
      Except.error (PyError.cliParseError
        "match command needs a query to execute, but nothing was given!") ∧
    matchParse [("graph", "ns")] (some "") (fun s => Except.ok s) (fun _ _ _ => []) =
      Except.error (PyError.cliParseError
        "match command needs a query to execute, but nothing was given!") :=
  ⟨c10_match_empty_query [("graph", "ns")] "ns" none
      (fun s => Except.ok s) (fun _ _ _ => []) rfl rfl,
   c10_match_empty_query [("graph", "ns")] "ns" (some "")
      (fun s => Except.ok s) (fun _ _ _ => []) rfl rfl⟩

/-- Python `x in d` on a dict succeeds exactly when the key lookup will. -/
theorem any_eq_isSome_find? {α : Type} (p : α → Bool) (l : List α) :
    l.any p = (l.find? p).isSome := by
  induction l with
  | nil => rfl
  | cons x xs ih => cases h : p x <;> simp [List.find?_cons, h, ih]

/-- One step of the id-derivation loop follows the per-element action. -/
theorem deriveNodeIds_cons (v : Value) (rest : List Value) :
    deriveNodeIds (v :: rest) =
      match idActionOf v with
      | IdAction.contrib idv =>
        match deriveNodeIds rest with
        | Except.error e => Except.error e
        | Except.ok ids => Except.ok (idv :: ids)
      | IdAction.skip => deriveNodeIds rest
      | IdAction.fail e => Except.error e := by
  cases v with
  | obj ps =>
    simp only [deriveNodeIds, pyIn, idActionOf, any_eq_isSome_find?]
    cases hf : ps.find? (fun p => p.1 == "_id") with
    | none => simp [pyGet, hf]
    | some p => simp [pyGet, hf]
  | str s =>
    simp only [deriveNodeIds, pyIn, idActionOf]
    cases hs : strContainsSub s "_id" <;> simp [pyGet, hs]
  | arr xs =>
    simp only [deriveNodeIds, pyIn, idActionOf]
    cases ha : xs.any (fun v => match v with | Value.str t => t == "_id" | _ => false) <;>
      simp [pyGet, ha]
  | null => rfl
  | bool b => rfl
  | num n => rfl

/-- The id-derivation loop on a batch with no failing element collects
exactly the contributed ids, in order. -/
theorem deriveNodeIds_ok (items : List Value)
    (h : ∀ v ∈ items, idActionFails (idActionOf v) = false) :
    deriveNodeIds items =
      Except.ok (items.filterMap (fun v => idContrib (idActionOf v))) := by
  induction items with
  | nil => rfl
  | cons x xs ih =>
    have hx := h x (List.mem_cons_self x xs)
    have hxs := ih (fun v hv => h v (List.mem_cons_of_mem x hv))
    rw [deriveNodeIds_cons]
    cases hA : idActionOf x with
    | contrib idv => rw [hxs]; simp [List.filterMap_cons, hA, idContrib]
    | skip => rw [hxs]; simp [List.filterMap_cons, hA, idContrib]
    | fail e => rw [hA] at hx; simp [idActionFails] at hx

/-- The id-derivation loop stops with the error of the first failing
element. -/
theorem deriveNodeIds_fail (pre : List Value) (bad : Value) (rest : List Value)
    (e : PyError) (hpre : ∀ v ∈ pre, idActionFails (idActionOf v) = false)
    (hbad : idActionOf bad = IdAction.fail e) :
    deriveNodeIds (pre ++ bad :: rest) = Except.error e := by
  induction pre with
  | nil => rw [List.nil_append, deriveNodeIds_cons, hbad]
  | cons x xs ih =>
    have hx := hpre x (List.mem_cons_self x xs)
    have hxs := ih (fun v hv => hpre v (List.mem_cons_of_mem x hv))
    rw [List.cons_append, deriveNodeIds_cons]
    cases hA : idActionOf x with
    | contrib idv => rw [hxs]
    | skip => exact hxs
    | fail e2 => rw [hA] at hx; simp [idActionFails] at hx

/-- Claim C2 (corrected), counterexample to the claim as stated: the
claim says an element that is a Mapping lacking `_id` makes the run fail
with a DataShapeError, but the id-derivation loop of
SetDesiredState.set_desired has no failure branch for it — the empty
Mapping is silently skipped and the batch succeeds with no ids. -/
theorem c2_desire_counterexample :
    deriveNodeIds [Value.obj []] = Except.ok [] := rfl

/-- Claim C2 (amended): for the desire and mark_delete stages, per batch
element: a Mapping with an `_id` key contributes that value to the node
ids and a Mapping without one is silently skipped (no error); a String
not containing `_id` as a substring contributes itself, while a String
containing `_id` fails the run with an untyped TypeError (the membership
test hits the subscript `item["_id"]`); a Sequence is skipped unless it
contains the string `_id`, which also fails with TypeError; Null, Bool
and Number elements fail the run with TypeError from the membership test
itself.  No DataShapeError exists on this path. -/
theorem c2_desire_amended (items : List Value) :
    ((∀ v ∈ items, idActionFails (idActionOf v) = false) →
      deriveNodeIds items =
        Except.ok (items.filterMap (fun v => idContrib (idActionOf v)))) ∧
    (∀ pre bad rest e, items = pre ++ bad :: rest →
      (∀ v ∈ pre, idActionFails (idActionOf v) = false) →
      idActionOf bad = IdAction.fail e →
      deriveNodeIds items = Except.error e) :=
  ⟨fun h => deriveNodeIds_ok items h,
   fun pre bad rest e heq hpre hbad =>
     heq ▸ deriveNodeIds_fail pre bad rest e hpre hbad⟩

/-- Claim C2 witness: a good batch (Mapping with `_id`, plain String,
Mapping without `_id` skipped) and a failing batch (Number element). -/
theorem c2_desire_witness :
    deriveNodeIds [Value.obj [("_id", Value.str "id1")], Value.str "id2",
        Value.obj [("x", Value.num 1)]] =
      Except.ok [Value.str "id1", Value.str "id2"] ∧
    deriveNodeIds [Value.obj [("_id", Value.str "id1")], Value.num 3] =
      Except.error (PyError.typeError "argument of type is not iterable") :=
  ⟨(c2_desire_amended [Value.obj [("_id", Value.str "id1")], Value.str "id2",
      Value.obj [("x", Value.num 1)]]).1 (by decide),
   (c2_desire_amended [Value.obj [("_id", Value.str "id1")], Value.num 3]).2
      [Value.obj [("_id", Value.str "id1")]] (Value.num 3) []
      (PyError.typeError "argument of type is not iterable") rfl (by decide) rfl⟩

/-- One step of the count fold follows the per-element action. -/
theorem countStep_eq (p : String) (v : Value) :
    countStep p v =
      match countActionSpec p v with
      | some c => Except.ok c
      | none => Except.error (PyError.typeError "argument of type is not iterable") := by
  cases v with
  | obj ps =>
    simp only [countStep, pyIn, countActionSpec, any_eq_isSome_find?]
    cases hf : ps.find? (fun q => q.1 == p) with
    | none => simp [pyGet, hf]
    | some q =>
      simp only [pyGet, hf, Option.isSome_some, if_true]
      cases hc : coerceInt q.2 <;> simp [hc]
  | str s =>
    simp only [countStep, pyIn, countActionSpec]
    cases hs : strContainsSub s p <;> simp [pyGet, hs]
  | arr xs =>
    simp only [countStep, pyIn, countActionSpec]
    cases ha : xs.any (fun v => match v with | Value.str t => t == p | _ => false) <;>
      simp [pyGet, ha]
  | null => rfl
  | bool b => rfl
  | num n => rfl

/-- The count fold over an input with no failing element accumulates the
per-element tallies. -/
theorem countGo_ok (p : String) (items : List Value) :
    ∀ acc, (∀ v ∈ items, (countActionSpec p v).isSome) →
      countGo p acc items =
        Except.ok (items.foldl
          (fun a v =>
            match countActionSpec p v with
            | some c => (a.1 + c.1, a.2 + c.2)
            | none => a) acc) := by
  induction items with
  | nil => intro acc _; rfl
  | cons x xs ih =>
    intro acc h
    have hx := h x (List.mem_cons_self x xs)
    rw [countGo, countStep_eq]
    cases hA : countActionSpec p x with
    | none => rw [hA] at hx; simp at hx
    | some c =>
      obtain ⟨c1, c2⟩ := c
      simp only [List.foldl_cons, hA]
      exact ih (acc.1 + c1, acc.2 + c2) (fun v hv => h v (List.mem_cons_of_mem x hv))

/-- The count fold stops with a TypeError at the first failing element. -/
theorem countGo_fail (p : String) (pre : List Value) (bad : Value) (rest : List Value) :
    ∀ acc, (∀ v ∈ pre, (countActionSpec p v).isSome) →
      countActionSpec p bad = none →
      countGo p acc (pre ++ bad :: rest) =
        Except.error (PyError.typeError "argument of type is not iterable") := by
  induction pre with
  | nil =>
    intro acc _ hbad
    rw [List.nil_append, countGo, countStep_eq, hbad]
  | cons x xs ih =>
    intro acc hpre hbad
    have hx := hpre x (List.mem_cons_self x xs)
    rw [List.cons_append, countGo, countStep_eq]
    cases hA : countActionSpec p x with
    | none => rfl
    | some c =>
      obtain ⟨c1, c2⟩ := c
      exact ih (acc.1 + c1, acc.2 + c2)
        (fun v hv => hpre v (List.mem_cons_of_mem x hv)) hbad

/-- Claim C3 (corrected), counterexample to the claim as stated: the
claim says an element that is not a Mapping increments not_matched
without failing the run, but on the Number element 1 the membership test
`arg in o` of inc_prop runs outside the try block and raises TypeError:
the whole run fails. -/
theorem c3_count_counterexample :
    countRun "a" [Value.num 1] =
      Except.error (PyError.typeError "argument of type is not iterable") := rfl

/-- Claim C3 (amended): for the count stage with property argument `p`:
a Mapping with key `p` whose value coerces to an integer adds it to the
matched sum; a Mapping lacking `p` or failing coercion, and every String
and every Sequence element, adds one to not_matched; a Null, Bool or
Number element makes the whole run fail with an untyped TypeError (the
membership test runs outside the try block).  When no element fails,
exactly one Mapping {matched, not_matched} is emitted after the input is
exhausted, also on empty input. -/
theorem c3_count_amended (p : String) (items : List Value) :
    ((∀ v ∈ items, (countActionSpec p v).isSome) →
      countRun p items =
        Except.ok [Value.obj [("matched", Value.num (specTally p items).1),
          ("not_matched", Value.num (specTally p items).2)]]) ∧
    (∀ pre bad rest, items = pre ++ bad :: rest →
      (∀ v ∈ pre, (countActionSpec p v).isSome) →
      countActionSpec p bad = none →
      countRun p items =
        Except.error (PyError.typeError "argument of type is not iterable")) := by
  constructor
  · intro h
    rw [countRun, countGo_ok p items (0, 0) h]
    rfl
  · intro pre bad rest heq hpre hbad
    rw [countRun, heq, countGo_fail p pre bad rest (0, 0) hpre hbad]

/-- Claim C3 witness: the summation example of the spec, the empty-input
boundary, a not_matched batch, and a failing Number element. -/
theorem c3_count_witness :
    countRun "a" [Value.obj [("a", Value.num 1)], Value.obj [("a", Value.num 2)],
        Value.obj [("a", Value.num 3)]] =
      Except.ok [Value.obj [("matched", Value.num 6), ("not_matched", Value.num 0)]] ∧
    countRun "a" [] =
      Except.ok [Value.obj [("matched", Value.num 0), ("not_matched", Value.num 0)]] ∧
    countRun "a" [Value.str "xyz", Value.arr [], Value.obj [("b", Value.num 1)]] =
      Except.ok [Value.obj [("matched", Value.num 0), ("not_matched", Value.num 3)]] ∧
    countRun "b" [Value.obj [("b", Value.num 1)], Value.null] =
      Except.error (PyError.typeError "argument of type is not iterable") :=
  ⟨(c3_count_amended "a" [Value.obj [("a", Value.num 1)], Value.obj [("a", Value.num 2)],
      Value.obj [("a", Value.num 3)]]).1 (by decide),
   (c3_count_amended "a" []).1 (by decide),
   (c3_count_amended "a" [Value.str "xyz", Value.arr [],
      Value.obj [("b", Value.num 1)]]).1 (by decide),
   (c3_count_amended "b" [Value.obj [("b", Value.num 1)], Value.null]).2
      [Value.obj [("b", Value.num 1)]] Value.null [] rfl (by decide) rfl⟩

/-- Concatenating the emitted chunks restores the input. -/
theorem chunksList_flatten (n : Nat) (l : List Value) : (chunksList n l).flatten = l := by
  induction l using chunksList.induct n with
  | case1 => simp [chunksList]
  | case2 x xs ih =>
    rw [chunksList, List.flatten_cons, ih, List.cons_append, List.take_append_drop]

/-- The chunking emits nothing exactly on empty input. -/
theorem chunksList_eq_nil_iff (n : Nat) (l : List Value) : chunksList n l = [] ↔ l = [] := by
  cases l with
  | nil => simp [chunksList]
  | cons x xs => rw [chunksList]; simp

/-- Every chunk except possibly the last is full. -/
theorem chunksList_dropLast (n : Nat) (hn : 0 < n) (l : List Value) :
    ∀ c ∈ (chunksList n l).dropLast, c.length = n := by
  induction l using chunksList.induct n with
  | case1 => simp [chunksList]
  | case2 x xs ih =>
    rw [chunksList]
    by_cases hd : List.drop (n - 1) xs = []
    · rw [hd] at ih ⊢
      simp [chunksList]
    · rw [List.dropLast_cons_of_ne_nil (by rw [ne_eq, chunksList_eq_nil_iff]; exact hd)]
      intro c hc
      rcases List.mem_cons.mp hc with h | h
      · subst h
        have hlt : n - 1 < xs.length := List.length_lt_of_drop_ne_nil hd
        simp only [List.length_cons, List.length_take]
        omega
      · exact ih c h

/-- Every chunk is nonempty and no chunk exceeds the requested size. -/
theorem chunksList_mem (n : Nat) (hn : 0 < n) (l : List Value) :
    ∀ c ∈ chunksList n l, c ≠ [] ∧ c.length ≤ n := by
  induction l using chunksList.induct n with
  | case1 => simp [chunksList]
  | case2 x xs ih =>
    rw [chunksList]
    intro c hc
    rcases List.mem_cons.mp hc with h | h
    · subst h
      refine ⟨by simp, ?_⟩
      simp only [List.length_cons, List.length_take]
      omega
    · exact ih c h

/-- Claim C8 (confirmed): for the chunk stage with positive size, the
output partitions the input in order: every chunk before the last has
length exactly the size, every chunk is nonempty and no longer than the
size (so only the final chunk may be shorter), concatenating the chunks
restores the input, and empty input yields zero chunks. -/
theorem c8_chunk_partitions (n : Nat) (xs : List Value) (hn : 0 < n) :
    (chunksList n xs).flatten = xs ∧
    (∀ c ∈ (chunksList n xs).dropLast, c.length = n) ∧
    (∀ c ∈ chunksList n xs, c ≠ [] ∧ c.length ≤ n) ∧
    chunksList n ([] : List Value) = [] :=
  ⟨chunksList_flatten n xs, chunksList_dropLast n hn xs,
   chunksList_mem n hn xs, (chunksList_eq_nil_iff n []).mpr rfl⟩

/-- Claim C8 witness: the spec example `echo [1,2,3,4,5] | chunk 2`, with
the concrete partition exhibited. -/
theorem c8_chunk_partitions_witness :
    ((chunksList 2 [Value.num 1, Value.num 2, Value.num 3, Value.num 4,
        Value.num 5]).flatten =
      [Value.num 1, Value.num 2, Value.num 3, Value.num 4, Value.num 5] ∧
    (∀ c ∈ (chunksList 2 [Value.num 1, Value.num 2, Value.num 3, Value.num 4,
        Value.num 5]).dropLast, c.length = 2) ∧
    (∀ c ∈ chunksList 2 [Value.num 1, Value.num 2, Value.num 3, Value.num 4,
        Value.num 5], c ≠ [] ∧ c.length ≤ 2) ∧
    chunksList 2 ([] : List Value) = []) ∧
    chunksList 2 [Value.num 1, Value.num 2, Value.num 3, Value.num 4, Value.num 5] =
      [[Value.num 1, Value.num 2], [Value.num 3, Value.num 4], [Value.num 5]] :=
  ⟨c8_chunk_partitions 2
      [Value.num 1, Value.num 2, Value.num 3, Value.num 4, Value.num 5] (by decide),
   by simp [chunksList]⟩

/-- The uniq filter aborts on an element with no fingerprint. -/
theorem uniqGo_cons_err (vis : List Fp) (x : Value) (xs : List Value) (e : PyError)
    (hf : fingerprint x = Except.error e) :
    uniqGo vis (x :: xs) = Except.error e := by
  rw [uniqGo, hf]

/-- The uniq filter drops an element whose fingerprint was seen. -/
theorem uniqGo_cons_mem (vis : List Fp) (x : Value) (xs : List Value) (fp : Fp)
    (hf : fingerprint x = Except.ok fp) (hv : fp ∈ vis) :
    uniqGo vis (x :: xs) = uniqGo vis xs := by
  rw [uniqGo, hf]
  simp [hv]

/-- The uniq filter keeps an element whose fingerprint is new and records
it in the visited set. -/
theorem uniqGo_cons_new (vis : List Fp) (x : Value) (xs : List Value) (fp : Fp)
    (hf : fingerprint x = Except.ok fp) (hv : fp ∉ vis) :
    uniqGo vis (x :: xs) =
      match uniqGo (fp :: vis) xs with
      | Except.error e => Except.error e
      | Except.ok ys => Except.ok (x :: ys) := by
  rw [uniqGo, hf]
  simp [hv]

/-- A successful uniq pass is a fixed point: filtering its own output
changes nothing, from any starting visited set. -/
theorem uniqGo_idem (xs : List Value) :
    ∀ vis ys, uniqGo vis xs = Except.ok ys → uniqGo vis ys = Except.ok ys := by
  induction xs with
  | nil =>
    intro vis ys h
    cases h
    rfl
  | cons x xs ih =>
    intro vis ys h
    cases hf : fingerprint x with
    | error e => rw [uniqGo_cons_err vis x xs e hf] at h; cases h
    | ok fp =>
      by_cases hv : fp ∈ vis
      · rw [uniqGo_cons_mem vis x xs fp hf hv] at h
        exact ih vis ys h
      · rw [uniqGo_cons_new vis x xs fp hf hv] at h
        cases hrec : uniqGo (fp :: vis) xs with
        | error e => rw [hrec] at h; cases h
        | ok ys2 =>
          rw [hrec] at h
          cases h
          rw [uniqGo_cons_new vis x ys2 fp hf hv, ih (fp :: vis) ys2 hrec]

/-- Claim C9 (confirmed): the uniq stage is idempotent — on any input on
which it succeeds, running it again on the output reproduces the output
exactly. -/
theorem c9_uniq_idempotent (xs ys : List Value) (h : uniqRun xs = Except.ok ys) :
    uniqRun ys = Except.ok ys :=
  uniqGo_idem xs [] ys h

/-- Claim C9 witness: a run with duplicates, rerun on its own output. -/
theorem c9_uniq_idempotent_witness :
    uniqRun [Value.num 1, Value.num 2, Value.num 1] = Except.ok [Value.num 1, Value.num 2] ∧
    uniqRun [Value.num 1, Value.num 2] = Except.ok [Value.num 1, Value.num 2] :=
  ⟨rfl, c9_uniq_idempotent [Value.num 1, Value.num 2, Value.num 1]
    [Value.num 1, Value.num 2] rfl⟩

/-- Key order on association-list pairs, as the canonical serialization
sorts them. -/
def keyLe (a b : String × Value) : Prop := a.1 ≤ b.1

/-- Every non-Sequence value has a fingerprint. -/
theorem fingerprint_ok_of_not_seq (v : Value) (h : isSeqB v = false) :
    fingerprint v = Except.ok (fpOf v) := by
  cases v with
  | arr xs => simp [isSeqB] at h
  | null => rfl
  | bool b => rfl
  | num n => rfl
  | str s => rfl
  | obj ps => rfl

/-- Inserting keeps the list a permutation of the cons. -/
theorem insertPair_perm (p : String × Value) (l : List (String × Value)) :
    (insertPair p l).Perm (p :: l) := by
  induction l with
  | nil => exact List.Perm.refl _
  | cons q qs ih =>
    rw [insertPair]
    by_cases h : p.1 ≤ q.1
    · rw [if_pos h]
    · rw [if_neg h]
      exact (List.Perm.cons q ih).trans (List.Perm.swap p q qs)

/-- The key sort permutes its input. -/
theorem sortPairs_perm (l : List (String × Value)) : (sortPairs l).Perm l := by
  induction l with
  | nil => exact List.Perm.refl _
  | cons p ps ih =>
    rw [sortPairs]
    exact (insertPair_perm p (sortPairs ps)).trans (List.Perm.cons p ih)

/-- Inserting into a key-sorted list keeps it key-sorted. -/
theorem insertPair_sorted (p : String × Value) (l : List (String × Value))
    (hs : l.Sorted keyLe) : (insertPair p l).Sorted keyLe := by
  induction l with
  | nil => simp [insertPair, keyLe]
  | cons q qs ih =>
    rw [insertPair]
    rcases List.sorted_cons.mp hs with ⟨hq, hqs⟩
    by_cases h : p.1 ≤ q.1
    · rw [if_pos h]
      refine List.sorted_cons.mpr ⟨?_, hs⟩
      intro b hb
      rcases List.mem_cons.mp hb with rfl | hb2
      · exact h
      · exact le_trans h (hq b hb2)
    · rw [if_neg h]
      refine List.sorted_cons.mpr ⟨?_, ih hqs⟩
      intro b hb
      rcases List.mem_cons.mp ((insertPair_perm p qs).mem_iff.mp hb) with rfl | hb2
      · exact le_of_not_le h
      · exact hq b hb2

/-- The key sort sorts. -/
theorem sortPairs_sorted (l : List (String × Value)) : (sortPairs l).Sorted keyLe := by
  induction l with
  | nil => simp [sortPairs]
  | cons p ps ih => rw [sortPairs]; exact insertPair_sorted p (sortPairs ps) ih

/-- Two key-sorted permutations of each other with pairwise-distinct keys
are equal. -/
theorem sorted_key_nodup_eq (l₁ l₂ : List (String × Value)) (hp : l₁.Perm l₂)
    (hs₁ : l₁.Sorted keyLe) (hs₂ : l₂.Sorted keyLe)
    (hn : (l₁.map Prod.fst).Nodup) : l₁ = l₂ := by
  haveI : IsAntisymm (String × Value) (fun a b => a.1 < b.1 ∨ a = b) := by
    refine ⟨?_⟩
    rintro a b (h1 | h1) (h2 | h2)
    · exact absurd (h1.trans h2) (lt_irrefl _)
    · exact h2.symm
    · exact h1
    · exact h1
  have hn₁ : l₁.Pairwise (fun a b => a.1 ≠ b.1) := by
    rw [List.Nodup, List.pairwise_map] at hn
    exact hn
  have hn₂ : l₂.Pairwise (fun a b => a.1 ≠ b.1) := by
    have := (hp.map Prod.fst).nodup_iff.mp hn
    rw [List.Nodup, List.pairwise_map] at this
    exact this
  have hs₁' : l₁.Pairwise (fun a b : String × Value => a.1 < b.1 ∨ a = b) :=
    (hs₁.and hn₁).imp (fun h => Or.inl (lt_of_le_of_ne h.1 h.2))
  have hs₂' : l₂.Pairwise (fun a b : String × Value => a.1 < b.1 ∨ a = b) :=
    (hs₂.and hn₂).imp (fun h => Or.inl (lt_of_le_of_ne h.1 h.2))
  exact List.eq_of_perm_of_sorted hp hs₁' hs₂'

/-- The recursive normalisation of the values of an association list is a
map. -/
theorem sortInner_eq_map (l : List (String × Value)) :
    sortInner l = l.map (fun p => (p.1, sortValue p.2)) := by
  induction l with
  | nil => rfl
  | cons p ps ih => rw [sortInner, ih, List.map_cons]

/-- Canonical serialization is key-order independent: permuting the pairs
of a Mapping with distinct keys leaves its fingerprint unchanged. -/
theorem fingerprint_obj_perm (ps qs : List (String × Value)) (hperm : ps.Perm qs)
    (hn : (ps.map Prod.fst).Nodup) :
    fingerprint (Value.obj ps) = fingerprint (Value.obj qs) := by
  have hmp : (sortInner ps).Perm (sortInner qs) := by
    rw [sortInner_eq_map, sortInner_eq_map]
    exact hperm.map _
  have hkeys : ((sortPairs (sortInner ps)).map Prod.fst).Perm (ps.map Prod.fst) := by
    have h1 := (sortPairs_perm (sortInner ps)).map Prod.fst
    have h2 : (sortInner ps).map Prod.fst = ps.map Prod.fst := by
      rw [sortInner_eq_map, List.map_map]
      rfl
    rw [h2] at h1
    exact h1
  have h1 : sortPairs (sortInner ps) = sortPairs (sortInner qs) := by
    apply sorted_key_nodup_eq
    · exact (sortPairs_perm _).trans (hmp.trans (sortPairs_perm _).symm)
    · exact sortPairs_sorted _
    · exact sortPairs_sorted _
    · exact hkeys.nodup_iff.mpr hn
  have e1 : sortValue (Value.obj ps) = Value.obj (sortPairs (sortInner ps)) := by
    rw [sortValue]
  have e2 : sortValue (Value.obj qs) = Value.obj (sortPairs (sortInner qs)) := by
    rw [sortValue]
  simp only [fingerprint, dumps, e1, e2, h1]

/-- The uniq filter computes first-occurrence deduplication, relative to
any starting visited set: what survives is the deduplicated input minus
the elements whose fingerprint was already visited. -/
theorem uniqGo_eq_dedup_filter (xs : List Value) (hx : noSeq xs = true) :
    ∀ vis, uniqGo vis xs =
      Except.ok ((dedupSpec xs).filter (fun y => decide (fpOf y ∉ vis))) := by
  induction xs with
  | nil => intro vis; rfl
  | cons x xs ih =>
    intro vis
    simp only [noSeq, List.all_cons, Bool.and_eq_true, Bool.not_eq_true'] at hx
    have hf := fingerprint_ok_of_not_seq x hx.1
    have hx2 : noSeq xs = true := hx.2
    by_cases hv : fpOf x ∈ vis
    · rw [uniqGo_cons_mem vis x xs (fpOf x) hf hv, ih hx2 vis, dedupSpec]
      rw [List.filter_cons]
      have hcx : (decide (fpOf x ∉ vis)) = false := by simp [hv]
      rw [hcx]
      simp only [Bool.false_eq_true, if_false, List.filter_filter]
      refine congrArg Except.ok ?_
      refine List.filter_congr ?_
      intro y hy
      by_cases hp : fpOf y ∈ vis
      · simp [hp]
      · have hne : fpOf y ≠ fpOf x := fun h => hp (h ▸ hv)
        simp [hp, hne]
    · rw [uniqGo_cons_new vis x xs (fpOf x) hf hv, ih hx2 (fpOf x :: vis), dedupSpec]
      rw [List.filter_cons]
      have hcx : (decide (fpOf x ∉ vis)) = true := by simp [hv]
      rw [hcx]
      simp only [if_true, List.filter_filter]
      refine congrArg Except.ok ?_
      refine congrArg (List.cons x) ?_
      refine List.filter_congr ?_
      intro y hy
      by_cases h1 : fpOf y = fpOf x
      · simp [List.mem_cons, h1]
      · by_cases h2 : fpOf y ∈ vis
        · simp [List.mem_cons, h1, h2]
        · simp [List.mem_cons, h1, h2]

/-- A Sequence element reached after only non-Sequence elements fails the
whole uniq run with CLIParseError, whatever the visited set. -/
theorem uniqGo_seq_fail (a : List Value) (zs : List Value) :
    ∀ ys, noSeq ys = true → ∀ vis,
      uniqGo vis (ys ++ Value.arr a :: zs) =
        Except.error (PyError.cliParseError "uniq can not make item uniq") := by
  intro ys
  induction ys with
  | nil =>
    intro _ vis
    rw [List.nil_append]
    exact uniqGo_cons_err vis (Value.arr a) zs _ rfl
  | cons y ys ih =>
    intro hy vis
    simp only [noSeq, List.all_cons, Bool.and_eq_true, Bool.not_eq_true'] at hy
    have hf := fingerprint_ok_of_not_seq y hy.1
    have hy2 : noSeq ys = true := hy.2
    rw [List.cons_append]
    by_cases hv : fpOf y ∈ vis
    · rw [uniqGo_cons_mem vis y _ (fpOf y) hf hv]
      exact ih hy2 vis
    · rw [uniqGo_cons_new vis y _ (fpOf y) hf hv, ih hy2 (fpOf y :: vis)]

/-- Claim C7 (confirmed): for the uniq stage on inputs of Mappings and
hashable scalars, exactly the first occurrence of each fingerprint is
emitted, in the original relative order (first conjunct, with `dedupSpec`
the claim-worded first-occurrence filter); the fingerprint of a Mapping
is its key-sorted canonical serialization, so permuting the pairs of a
Mapping with distinct keys leaves the fingerprint unchanged (second
conjunct); and an input element that is a Sequence makes the run fail
with the typed CLIParseError (third conjunct).  Fingerprints of scalars
are the values themselves, compared with Python equality (booleans equal
their numeric values). -/
theorem c7_uniq_fingerprints (xs : List Value) :
    (noSeq xs = true → uniqRun xs = Except.ok (dedupSpec xs)) ∧
    (∀ ps qs, ps.Perm qs → (ps.map Prod.fst).Nodup →
      fingerprint (Value.obj ps) = fingerprint (Value.obj qs)) ∧
    (∀ ys a zs, xs = ys ++ Value.arr a :: zs → noSeq ys = true →
      uniqRun xs = Except.error (PyError.cliParseError "uniq can not make item uniq")) := by
  refine ⟨fun h => ?_, fun ps qs hperm hn => fingerprint_obj_perm ps qs hperm hn,
    fun ys a zs heq hy => ?_⟩
  · rw [uniqRun, uniqGo_eq_dedup_filter xs h []]
    refine congrArg Except.ok ?_
    refine List.filter_congr ?_ |>.trans (List.filter_true _)
    intro y hy
    simp
  · rw [uniqRun, heq]
    exact uniqGo_seq_fail a zs ys hy []

/-- Claim C7 witness: a deduplicating run (hypothesis discharged on a
Sequence-free input), the key-order-independent Mapping fingerprint of
the spec example, and the failing Sequence input. -/
theorem c7_uniq_fingerprints_witness :
    uniqRun [Value.num 1, Value.obj [("a", Value.num 1), ("b", Value.num 2)],
        Value.num 1] =
      Except.ok (dedupSpec [Value.num 1,
        Value.obj [("a", Value.num 1), ("b", Value.num 2)], Value.num 1]) ∧
    fingerprint (Value.obj [("a", Value.num 1), ("b", Value.num 2)]) =
      fingerprint (Value.obj [("b", Value.num 2), ("a", Value.num 1)]) ∧
    uniqRun [Value.num 1, Value.arr [Value.num 2]] =
      Except.error (PyError.cliParseError "uniq can not make item uniq") :=
  ⟨(c7_uniq_fingerprints [Value.num 1,
      Value.obj [("a", Value.num 1), ("b", Value.num 2)], Value.num 1]).1 (by decide),
   (c7_uniq_fingerprints []).2.1 [("a", Value.num 1), ("b", Value.num 2)]
      [("b", Value.num 2), ("a", Value.num 1)]
      (List.Perm.swap ("b", Value.num 2) ("a", Value.num 1) []) (by decide),
   (c7_uniq_fingerprints [Value.num 1, Value.arr [Value.num 2]]).2.2
      [Value.num 1] [Value.num 2] [] rfl (by decide)⟩
